import Mathlib

/-!
Shallow embedding of the Morpheus LLM engine core
(`src/morpheus/_lib/src/llm/llm_engine.cpp`,
`src/morpheus/_lib/src/messages/control.cpp`, and the headers
`llm_context.hpp` / `llm_task_handler_runner.hpp`).

Modelling conventions:
* `nlohmann::json` values are the inductive `J`; JSON objects are
  insertion-ordered association lists (key order never matters for the
  verified properties; lookups use first-occurrence semantics, matching
  the unique-key objects the C++ code actually builds).
* C++ member functions that may `throw` are modelled by returning either
  an `Except Err _` result or a `_ × Option Err` pair together with the
  post-state; a thrown exception carries no return value, which models the
  fact that the C++ caller observes no partial result on failure.
* Coroutines (`Task<T>`, `co_await`) are collapsed to plain function
  calls: the core is single-threaded and cooperative, so awaiting a task
  is just evaluating it.
* External collaborators (the node graph's `execute`, the task-handler
  capabilities behind `LLMTaskHandlerRunner::try_handle`) are parameters:
  arbitrary functions from a context to a fallible result.
-/

namespace Morpheus

/-- JSON values (`nlohmann::json`); objects are association lists. -/
inductive J where
  | null : J
  | boolean : Bool → J
  | num : Int → J
  | str : String → J
  | arr : List J → J
  | obj : List (String × J) → J

/-- Lookup of a key in a JSON object, first occurrence wins. -/
def objLookup : List (String × J) → String → Option J
  | [], _ => none
  | (k, v) :: rest, key => if k = key then some v else objLookup rest key

/-- Assignment `o[key] = v` on a JSON object: replaces the first binding of
`key` or appends a fresh one. -/
def objSet : List (String × J) → String → J → List (String × J)
  | [], key, v => [(key, v)]
  | (k, w) :: rest, key, v =>
    if k = key then (key, v) :: rest else (k, w) :: objSet rest key v

/-- `ControlMessageType` enum from `control.hpp`. -/
inductive ControlMessageType where
  | NONE : ControlMessageType
  | INFERENCE : ControlMessageType
  | TRAINING : ControlMessageType
deriving DecidableEq, Repr

/-- Every error the modelled core can raise (`std::runtime_error` /
`nlohmann::json` exceptions, by site). `external` stands for an exception
thrown inside an external collaborator (a node's `execute` or a task
handler). -/
inductive Err where
  | NullMessage : Err
  | NoEngineTask : Err
  | UnhandledOutputs : Err
  | MixedTaskCategories : Err
  | TaskKeyNotFound : Err
  | NoTasksOfType : Err
  | BadTask : Err
  | external : Nat → Err
deriving DecidableEq, Repr

/-- `ControlMessage::s_task_type_map` (`control.cpp` lines 36-37), composed
with the `contains ? map[t] : NONE` selection used at each call site. -/
def taskTypeOf (task_type : String) : ControlMessageType :=
  if task_type = "inference" then ControlMessageType.INFERENCE
  else if task_type = "training" then ControlMessageType.TRAINING
  else ControlMessageType.NONE

/-- The `m_tasks` JSON object: a map from task-type string to the array of
queued task dicts. Lookup, first occurrence wins (keys are unique in the
C++ object). -/
def tasksLookup : List (String × List J) → String → Option (List J)
  | [], _ => none
  | (k, ts) :: rest, ty => if k = ty then some ts else tasksLookup rest ty

/-- `m_tasks[task_type].push_back(task)`: appends to the array at the key,
creating an empty array first when the key is absent. -/
def tasksPush : List (String × List J) → String → J → List (String × List J)
  | [], ty, t => [(ty, [t])]
  | (k, ts) :: rest, ty, t =>
    if k = ty then (k, ts ++ [t]) :: rest else (k, ts) :: tasksPush rest ty t

/-- `task_set.erase(task_set.begin())`: drops the front element of the array
at the key (the key stays, possibly holding an empty array). -/
def tasksPopFront : List (String × List J) → String → List (String × List J)
  | [], _ => []
  | (k, ts) :: rest, ty =>
    if k = ty then (k, ts.tail) :: rest else (k, ts) :: tasksPopFront rest ty

/-- `morpheus::ControlMessage` (`control.cpp`). `m_payload`
(`shared_ptr<MessageMeta>`) and `m_obj_payload` (`py::object`) are opaque
here: only their presence matters to the verified properties, so they are
modelled as optional opaque handles. `m_cm_type`'s default member
initializer lives in `control.hpp` (not under `src/`); it is `NONE`, which
is forced by the `add_task` / `config` logic in `control.cpp` that treats a
fresh message as having no category yet. -/
structure ControlMessage where
  m_config : J
  m_tasks : List (String × List J)
  m_payload : Option Nat
  m_obj_payload : Option Nat
  m_cm_type : ControlMessageType

/-- `ControlMessage::ControlMessage()` (`control.cpp` line 39). -/
def ControlMessage.init : ControlMessage :=
  { m_config := J.obj [("metadata", J.obj [])]
  , m_tasks := []
  , m_payload := none
  , m_obj_payload := none
  , m_cm_type := ControlMessageType.NONE }

/-- `ControlMessage::task_type()` getter (`control.cpp` lines 201-204). -/
def ControlMessage.get_task_type (m : ControlMessage) : ControlMessageType :=
  m.m_cm_type

/-- `ControlMessage::add_task` (`control.cpp` lines 59-76). Returns the
post-state together with the thrown error, if any; the mutation order of
the C++ body is preserved (the discriminator is set before the mixed-
category check, the task is appended after it). -/
def ControlMessage.add_task (m : ControlMessage) (task_type : String) (task : J) :
    ControlMessage × Option Err :=
  let t := taskTypeOf task_type
  let m1 := if m.m_cm_type = ControlMessageType.NONE then { m with m_cm_type := t } else m
  if t ≠ ControlMessageType.NONE ∧ m1.m_cm_type ≠ t then
    (m1, some Err.MixedTaskCategories)
  else
    ({ m1 with m_tasks := tasksPush m1.m_tasks task_type task }, none)

/-- `ControlMessage::has_task` (`control.cpp` lines 78-81):
`m_tasks.contains(t) && m_tasks.at(t).size() > 0`. -/
def ControlMessage.has_task (m : ControlMessage) (task_type : String) : Bool :=
  match tasksLookup m.m_tasks task_type with
  | some ts => decide (0 < ts.length)
  | none => false

/-- `ControlMessage::remove_task` (`control.cpp` lines 125-139):
`m_tasks.at(t)` throws when the key is absent (`TaskKeyNotFound` models
`json::out_of_range`); an empty array raises the explicit
"No tasks of type" error; otherwise the front task is returned and erased. -/
def ControlMessage.remove_task (m : ControlMessage) (task_type : String) :
    Except Err J × ControlMessage :=
  match tasksLookup m.m_tasks task_type with
  | none => (Except.error Err.TaskKeyNotFound, m)
  | some [] => (Except.error Err.NoTasksOfType, m)
  | some (t :: _) =>
    (Except.ok t, { m with m_tasks := tasksPopFront m.m_tasks task_type })

/-- `ControlMessage::ControlMessage(const ControlMessage&)` (`control.cpp`
lines 48-52): only `m_config` and `m_tasks` are assigned; every other
member keeps its default initializer (null payload, no attached object,
`NONE` discriminator). -/
def ControlMessage.copy (other : ControlMessage) : ControlMessage :=
  { m_config := other.m_config
  , m_tasks := other.m_tasks
  , m_payload := none
  , m_obj_payload := none
  , m_cm_type := ControlMessageType.NONE }

/-- The queue of tasks of a given type, as the loop observes it
(empty both when the key is absent and when its array is empty). -/
def taskQueue (m : ControlMessage) (task_type : String) : List J :=
  (tasksLookup m.m_tasks task_type).getD []

/-- `morpheus::llm::LLMTask` (`llm_task.hpp`): the `(task_type, task_dict)`
pair built once per drained task. -/
structure LLMTask where
  task_type : String
  task_dict : J

/-- `morpheus::llm::LLMContextState` (`llm_context.hpp` lines 35-40):
the per-root shared record holding the task, the owning message and the
cross-node `values` publication object. -/
structure LLMContextState where
  task : LLMTask
  message : Option ControlMessage
  values : List (String × J)

/-- `morpheus::llm::LLMContext` (`llm_context.hpp`). The parent pointer and
the input mapping are omitted: no verified claim depends on them (input
resolution is out of scope here). `m_outputs_ready` models the
promise/shared-future one-shot completion signal. -/
structure LLMContext where
  m_name : String
  m_output_names : List String
  m_state : LLMContextState
  m_outputs : List (String × J)
  m_outputs_ready : Bool

/-- `LLMContext(LLMTask task, shared_ptr<ControlMessage> message)`: the
root-context constructor used by the engine loop — empty name, fresh state
holding the task and the message, empty outputs, no output-name filter,
pending completion signal. -/
def LLMContext.mkRoot (task : LLMTask) (message : ControlMessage) : LLMContext :=
  { m_name := ""
  , m_output_names := []
  , m_state := { task := task, message := some message, values := [] }
  , m_outputs := []
  , m_outputs_ready := false }

/-- Modelled from the spec: the body of `LLMContext::outputs_complete` is
declared in `llm_context.hpp` (line 83) but its translation unit
(`llm_context.cpp`) is not under `src/`. Per the spec it (a) filters the
local `outputs` by `output_names` when that list is non-empty, (b) writes
the filtered object into `state.values[name]`, and (c) transitions the
one-shot `outputs_ready` signal to ready. -/
def LLMContext.outputs_complete (ctx : LLMContext) : LLMContext :=
  let filtered :=
    if ctx.m_output_names = [] then ctx.m_outputs
    else ctx.m_outputs.filter fun kv => decide (kv.1 ∈ ctx.m_output_names)
  { ctx with
    m_outputs := filtered
  , m_state := { ctx.m_state with
                 values := objSet ctx.m_state.values ctx.m_name (J.obj filtered) }
  , m_outputs_ready := true }

/-- `morpheus::llm::LLMTaskHandlerRunner` (`llm_task_handler_runner.hpp`):
its `try_handle` wraps an external task-handler capability (push a child
context, await the handler, pop). The wrapped behaviour is external to the
sources, so the runner is modelled by the function the engine observes:
context in, either an exception or an optional vector of new control
messages out (`LLMTaskHandler::return_t = optional<vector<shared_ptr<ControlMessage>>>`). -/
structure LLMTaskHandlerRunner where
  try_handle : LLMContext → Except Err (Option (List ControlMessage))

/-- `morpheus::llm::LLMEngine`: the ordered list of registered task-handler
runners, plus the inherited node-graph `execute` (external: provided by the
`LLMNodeRunner` base and the registered nodes, none of which are under
`src/`), modelled as an arbitrary fallible context transformer. -/
structure LLMEngine where
  execute : LLMContext → Except Err LLMContext
  m_task_handlers : List LLMTaskHandlerRunner

/-- `LLMEngine::add_task_handler` (`llm_engine.cpp` lines 14-21), with the
input-name reconciliation already folded into the runner: the runner is
appended, so registration order is list order. -/
def LLMEngine.add_task_handler (eng : LLMEngine) (r : LLMTaskHandlerRunner) : LLMEngine :=
  { eng with m_task_handlers := eng.m_task_handlers ++ [r] }

/-- The loop body of `LLMEngine::handle_tasks` (`llm_engine.cpp` lines
64-74): consult each runner in order; the first defined result is returned
verbatim; a thrown exception propagates; if the list is exhausted, the
"No task handler was able to handle ..." error is raised. -/
def handleTasksGo : List LLMTaskHandlerRunner → LLMContext → Except Err (List ControlMessage)
  | [], _ => Except.error Err.UnhandledOutputs
  | r :: rest, context =>
    match r.try_handle context with
    | Except.error e => Except.error e
    | Except.ok (some new_tasks) => Except.ok new_tasks
    | Except.ok none => handleTasksGo rest context

/-- `LLMEngine::handle_tasks` (`llm_engine.cpp` lines 59-75). -/
def LLMEngine.handle_tasks (eng : LLMEngine) (context : LLMContext) :
    Except Err (List ControlMessage) :=
  handleTasksGo eng.m_task_handlers context

/-- `LLMTask tmp_task(current_task["task_type"].get<string>(), current_task.at("task_dict"))`
(`llm_engine.cpp` line 42): reading the two fields of the drained task
JSON; any shape mismatch is an `nlohmann::json` exception, collapsed to
`BadTask`. -/
def parseLLMTask (current_task : J) : Except Err LLMTask :=
  match current_task with
  | J.obj kvs =>
    match objLookup kvs "task_type", objLookup kvs "task_dict" with
    | some (J.str s), some d => Except.ok { task_type := s, task_dict := d }
    | _, _ => Except.error Err.BadTask
  | _ => Except.error Err.BadTask

/-- One iteration of the `run` loop after the task has been drained
(`llm_engine.cpp` lines 41-51): build the `LLMTask`, construct the root
context on the (already-drained) message, `co_await execute(context)`,
then `co_await handle_tasks(context)`. -/
def LLMEngine.runStep (eng : LLMEngine) (current_task : J) (msg : ControlMessage) :
    Except Err (List ControlMessage) :=
  match parseLLMTask current_task with
  | Except.error e => Except.error e
  | Except.ok tmp_task =>
    let context := LLMContext.mkRoot tmp_task msg
    match eng.execute context with
    | Except.error e => Except.error e
    | Except.ok ctx2 => eng.handle_tasks ctx2

theorem tasksLookup_tasksPopFront_self (l : List (String × List J)) (ty : String)
    (x : J) (xs : List J) (h : tasksLookup l ty = some (x :: xs)) :
    tasksLookup (tasksPopFront l ty) ty = some xs := by
  induction l with
  | nil => simp [tasksLookup] at h
  | cons kv rest ih =>
    obtain ⟨k, ts⟩ := kv
    by_cases hk : k = ty
    · subst hk
      simp [tasksLookup] at h
      simp [tasksPopFront, tasksLookup, h]
    · simp [tasksLookup, hk] at h
      simp [tasksPopFront, tasksLookup, hk, ih h]

theorem remove_task_queue (m : ControlMessage) (t : J) (m2 : ControlMessage)
    (h : m.remove_task "llm_engine" = (Except.ok t, m2)) :
    taskQueue m "llm_engine" = t :: taskQueue m2 "llm_engine" := by
  unfold ControlMessage.remove_task at h
  cases hq : tasksLookup m.m_tasks "llm_engine" with
  | none => rw [hq] at h; simp at h
  | some ts =>
    cases ts with
    | nil => rw [hq] at h; simp at h
    | cons x xs =>
      rw [hq] at h
      simp only [Prod.mk.injEq, Except.ok.injEq] at h
      obtain ⟨ht, hm⟩ := h
      subst ht
      rw [← hm]
      simp [taskQueue, hq, tasksLookup_tasksPopFront_self m.m_tasks "llm_engine" x xs hq]

theorem remove_task_queue_length (m : ControlMessage) (t : J) (m2 : ControlMessage)
    (h : m.remove_task "llm_engine" = (Except.ok t, m2)) :
    (taskQueue m2 "llm_engine").length < (taskQueue m "llm_engine").length := by
  rw [remove_task_queue m t m2 h]
  simp

/-- The `while (input_message->has_task("llm_engine"))` loop of
`LLMEngine::run` (`llm_engine.cpp` lines 35-56), with the accumulated
`output_messages` vector made explicit in the return value and the error
paths (C++ exceptions) returning no vector at all — which is exactly what
the C++ caller observes, since the local `output_messages` is destroyed
during unwinding. The post-state of the message accompanies the result.
Termination: each drain shortens the `llm_engine` queue, and the external
collaborators never touch the queue (the spec fixes that task-queue
mutations happen only in this loop). -/
def LLMEngine.runLoop (eng : LLMEngine) (msg : ControlMessage) :
    Except Err (List ControlMessage) × ControlMessage :=
  if h : msg.has_task "llm_engine" = true then
    match hrem : msg.remove_task "llm_engine" with
    | (Except.error e, m2) => (Except.error e, m2)
    | (Except.ok current_task, m2) =>
      match eng.runStep current_task m2 with
      | Except.error e => (Except.error e, m2)
      | Except.ok tasks =>
        match eng.runLoop m2 with
        | (Except.ok rest, mfin) => (Except.ok (tasks ++ rest), mfin)
        | (Except.error e, mfin) => (Except.error e, mfin)
  else
    (Except.ok [], msg)
termination_by (taskQueue msg "llm_engine").length
decreasing_by
  exact remove_task_queue_length msg current_task m2 hrem

/-- `LLMEngine::run` (`llm_engine.cpp` lines 23-57): null-message and
missing-task preconditions, then the drain loop. The argument is
`Option ControlMessage` because the C++ parameter is a possibly-null
`shared_ptr`. The pair's second component is the final state of the input
message (unchanged on a precondition failure). -/
def LLMEngine.run (eng : LLMEngine) (input_message : Option ControlMessage) :
    Except Err (List ControlMessage) × Option ControlMessage :=
  match input_message with
  | none => (Except.error Err.NullMessage, none)
  | some msg =>
    if msg.has_task "llm_engine" = true then
      ((eng.runLoop msg).1, some (eng.runLoop msg).2)
    else
      (Except.error Err.NoEngineTask, some msg)

/-! Basic facts about the task-queue object operations. -/

theorem tasksLookup_tasksPush_self (l : List (String × List J)) (ty : String) (t : J) :
    tasksLookup (tasksPush l ty t) ty = some ((tasksLookup l ty).getD [] ++ [t]) := by
  induction l with
  | nil => simp [tasksPush, tasksLookup]
  | cons kv rest ih =>
    obtain ⟨k, ts⟩ := kv
    by_cases hk : k = ty
    · subst hk
      simp [tasksPush, tasksLookup]
    · simp [tasksPush, tasksLookup, hk, ih]

theorem tasksLookup_tasksPush_other (l : List (String × List J)) (ty ty2 : String)
    (t : J) (h : ty2 ≠ ty) :
    tasksLookup (tasksPush l ty t) ty2 = tasksLookup l ty2 := by
  induction l with
  | nil => simp [tasksPush, tasksLookup, Ne.symm h]
  | cons kv rest ih =>
    obtain ⟨k, ts⟩ := kv
    by_cases hk : k = ty
    · subst hk
      simp [tasksPush, tasksLookup, Ne.symm h]
    · by_cases hk2 : k = ty2
      · subst hk2
        simp [tasksPush, tasksLookup, hk]
      · simp [tasksPush, tasksLookup, hk, hk2, ih]

theorem tasksLookup_tasksPopFront_other (l : List (String × List J)) (ty ty2 : String)
    (h : ty2 ≠ ty) :
    tasksLookup (tasksPopFront l ty) ty2 = tasksLookup l ty2 := by
  induction l with
  | nil => rfl
  | cons kv rest ih =>
    obtain ⟨k, ts⟩ := kv
    by_cases hk : k = ty
    · subst hk
      simp [tasksPopFront, tasksLookup, Ne.symm h]
    · by_cases hk2 : k = ty2
      · subst hk2
        simp [tasksPopFront, tasksLookup, hk]
      · simp [tasksPopFront, tasksLookup, hk, hk2, ih]

theorem has_task_iff (m : ControlMessage) (ty : String) :
    m.has_task ty = true ↔ taskQueue m ty ≠ [] := by
  unfold ControlMessage.has_task taskQueue
  cases tasksLookup m.m_tasks ty with
  | none => simp
  | some ts => cases ts <;> simp

theorem taskQueue_eq_cons (m : ControlMessage) (ty : String) (x : J) (xs : List J)
    (h : taskQueue m ty = x :: xs) :
    tasksLookup m.m_tasks ty = some (x :: xs) := by
  unfold taskQueue at h
  cases hq : tasksLookup m.m_tasks ty with
  | none => rw [hq] at h; simp at h
  | some ts => rw [hq] at h; simp at h; rw [h]

theorem remove_task_of_queue (m : ControlMessage) (ty : String) (x : J) (xs : List J)
    (h : taskQueue m ty = x :: xs) :
    m.remove_task ty
      = (Except.ok x, { m with m_tasks := tasksPopFront m.m_tasks ty }) := by
  have hl := taskQueue_eq_cons m ty x xs h
  unfold ControlMessage.remove_task
  rw [hl]

theorem taskQueue_drain (m : ControlMessage) (x : J) (xs : List J)
    (h : taskQueue m "llm_engine" = x :: xs) :
    taskQueue { m with m_tasks := tasksPopFront m.m_tasks "llm_engine" } "llm_engine" = xs := by
  have hl := taskQueue_eq_cons m "llm_engine" x xs h
  unfold taskQueue
  simp [tasksLookup_tasksPopFront_self m.m_tasks "llm_engine" x xs hl]

theorem objLookup_objSet_self (l : List (String × J)) (k : String) (v : J) :
    objLookup (objSet l k v) k = some v := by
  induction l with
  | nil => simp [objSet, objLookup]
  | cons kv rest ih =>
    obtain ⟨k2, w⟩ := kv
    by_cases hk : k2 = k
    · subst hk
      simp [objSet, objLookup]
    · simp [objSet, objLookup, hk, ih]

/-! Unfolding lemmas for the run loop. -/

theorem runLoop_no_task (eng : LLMEngine) (msg : ControlMessage)
    (h : msg.has_task "llm_engine" = false) :
    eng.runLoop msg = (Except.ok [], msg) := by
  rw [LLMEngine.runLoop]
  simp [h]

theorem runLoop_cons (eng : LLMEngine) (msg : ControlMessage) (x : J) (xs : List J)
    (hq : taskQueue msg "llm_engine" = x :: xs) :
    eng.runLoop msg =
      match eng.runStep x { msg with m_tasks := tasksPopFront msg.m_tasks "llm_engine" } with
      | Except.error e =>
        (Except.error e, { msg with m_tasks := tasksPopFront msg.m_tasks "llm_engine" })
      | Except.ok tasks =>
        match eng.runLoop { msg with m_tasks := tasksPopFront msg.m_tasks "llm_engine" } with
        | (Except.ok rest, mfin) => (Except.ok (tasks ++ rest), mfin)
        | (Except.error e, mfin) => (Except.error e, mfin) := by
  have hht : msg.has_task "llm_engine" = true := by
    rw [has_task_iff, hq]; simp
  have hrem := remove_task_of_queue msg "llm_engine" x xs hq
  rw [LLMEngine.runLoop]
  rw [dif_pos hht]
  split
  · rename_i e m2 heq
    rw [hrem] at heq
    simp at heq
  · rename_i ct m2 heq
    rw [hrem] at heq
    simp only [Prod.mk.injEq, Except.ok.injEq] at heq
    obtain ⟨h1, h2⟩ := heq
    subst h1
    subst h2
    rfl

/-! Concrete fixtures, used by the witness theorems. -/

/-- A concrete drained-task JSON value of the shape the engine expects. -/
def sampleTaskJson : J :=
  J.obj [("task_type", J.str "inference"), ("task_dict", J.obj [])]

/-- A concrete message holding one `llm_engine` task. -/
def sampleMessage : ControlMessage :=
  { ControlMessage.init with m_tasks := [("llm_engine", [sampleTaskJson])] }

/-- A runner that accepts every context with one follow-up message. -/
def sampleRunner : LLMTaskHandlerRunner :=
  { try_handle := fun _ => Except.ok (some [ControlMessage.init]) }

/-- A runner that accepts every context with an empty vector. -/
def emptyRunner : LLMTaskHandlerRunner :=
  { try_handle := fun _ => Except.ok (some []) }

/-- A runner that declines every context. -/
def declineRunner : LLMTaskHandlerRunner :=
  { try_handle := fun _ => Except.ok none }

/-- An engine whose node graph is a no-op and whose only handler accepts. -/
def sampleEngine : LLMEngine :=
  { execute := Except.ok, m_task_handlers := [sampleRunner] }

/-- A message with every member populated, for the copy-constructor
witness. -/
def richMessage : ControlMessage :=
  { m_config := J.obj [("metadata", J.obj [("k", J.str "v")])]
  , m_tasks := [("inference", [J.null])]
  , m_payload := some 7
  , m_obj_payload := some 3
  , m_cm_type := ControlMessageType.INFERENCE }

/-- A message holding one `llm_engine` task. -/
def oneTaskMessage : ControlMessage :=
  { ControlMessage.init with m_tasks := [("llm_engine", [sampleTaskJson])] }

/-- A message holding two `llm_engine` tasks. -/
def twoTaskMessage : ControlMessage :=
  { ControlMessage.init with
    m_tasks := [("llm_engine", [sampleTaskJson, sampleTaskJson])] }

/-- The drained form of the messages above: the key stays, the array is
empty (exactly what repeated `remove_task` leaves behind). -/
def drainedMessage : ControlMessage :=
  { ControlMessage.init with m_tasks := [("llm_engine", [])] }

/-- A task whose `task_dict` is a string: the boom runner rejects it. -/
def boomTaskJson : J :=
  J.obj [("task_type", J.str "inference"), ("task_dict", J.str "boom")]

/-- A runner that throws on a string-valued `task_dict` and otherwise
accepts with one follow-up message. -/
def boomRunner : LLMTaskHandlerRunner :=
  { try_handle := fun ctx =>
      match ctx.m_state.task.task_dict with
      | J.str _ => Except.error (Err.external 42)
      | _ => Except.ok (some [ControlMessage.init]) }

/-- An engine whose only handler is the boom runner. -/
def boomEngine : LLMEngine :=
  { execute := Except.ok, m_task_handlers := [boomRunner] }

/-- A message whose first task succeeds and whose second one makes the
boom runner throw. -/
def boomMessage : ControlMessage :=
  { ControlMessage.init with
    m_tasks := [("llm_engine", [sampleTaskJson, boomTaskJson])] }

theorem handleTasksGo_skip_declined (context : LLMContext) (pre rest : List LLMTaskHandlerRunner)
    (hpre : ∀ q ∈ pre, q.try_handle context = Except.ok none) :
    handleTasksGo (pre ++ rest) context = handleTasksGo rest context := by
  induction pre with
  | nil => rfl
  | cons q pre2 ih =>
    have hq := hpre q (List.mem_cons_self q pre2)
    simp only [List.cons_append, handleTasksGo, hq]
    exact ih fun g hg => hpre g (List.mem_cons_of_mem q hg)

/-- C1: `handle_tasks` consults the registered runners in registration
order; the first runner whose `try_handle` yields a defined result wins and
its vector is returned verbatim (an empty vector included) while every
later runner is irrelevant to the result; if every runner yields an
undefined result, `handle_tasks` fails with `UnhandledOutputs`. -/
theorem handle_tasks_first_defined (execute : LLMContext → Except Err LLMContext)
    (context : LLMContext) :
    (∀ (pre post : List LLMTaskHandlerRunner) (r : LLMTaskHandlerRunner)
        (v : List ControlMessage),
      (∀ q ∈ pre, q.try_handle context = Except.ok none) →
      r.try_handle context = Except.ok (some v) →
      (LLMEngine.mk execute (pre ++ r :: post)).handle_tasks context = Except.ok v)
  ∧ (∀ runners : List LLMTaskHandlerRunner,
      (∀ q ∈ runners, q.try_handle context = Except.ok none) →
      (LLMEngine.mk execute runners).handle_tasks context = Except.error Err.UnhandledOutputs) := by
  constructor
  · intro pre post r v hpre hr
    unfold LLMEngine.handle_tasks
    rw [handleTasksGo_skip_declined context pre (r :: post) hpre]
    simp [handleTasksGo, hr]
  · intro runners hall
    unfold LLMEngine.handle_tasks
    have := handleTasksGo_skip_declined context runners [] hall
    rw [List.append_nil] at this
    rw [this]
    rfl

/-- C1 witness: two declining runners before an accepter returning the
empty vector, an arbitrary runner after it; and an all-declining chain. -/
theorem handle_tasks_first_defined_witness :
    (LLMEngine.mk Except.ok
        ([declineRunner, declineRunner] ++ emptyRunner :: [sampleRunner])).handle_tasks
        (LLMContext.mkRoot ⟨"inference", J.obj []⟩ ControlMessage.init)
      = Except.ok []
  ∧ (LLMEngine.mk Except.ok [declineRunner]).handle_tasks
        (LLMContext.mkRoot ⟨"inference", J.obj []⟩ ControlMessage.init)
      = Except.error Err.UnhandledOutputs := by
  constructor
  · exact (handle_tasks_first_defined Except.ok
      (LLMContext.mkRoot ⟨"inference", J.obj []⟩ ControlMessage.init)).1
      [declineRunner, declineRunner] [sampleRunner] emptyRunner []
      (by intro q hq; simp at hq; rw [hq]; rfl)
      rfl
  · exact (handle_tasks_first_defined Except.ok
      (LLMContext.mkRoot ⟨"inference", J.obj []⟩ ControlMessage.init)).2
      [declineRunner]
      (by intro q hq; simp at hq; rw [hq]; rfl)

/-- C3: `run` fails with `NullMessage` on a null message and with
`NoEngineTask` on a message that has no `llm_engine` task at entry; in both
cases the message state is returned unchanged (no task is drained) and the
error carries no output vector (no output message is produced). -/
theorem run_precondition_failures (eng : LLMEngine) :
    eng.run none = (Except.error Err.NullMessage, none)
  ∧ ∀ msg : ControlMessage, msg.has_task "llm_engine" = false →
      eng.run (some msg) = (Except.error Err.NoEngineTask, some msg) := by
  constructor
  · rfl
  · intro msg h
    unfold LLMEngine.run
    simp [h]

/-- C3 witness: the sample engine on a null message and on a fresh message
with no tasks at all. -/
theorem run_precondition_failures_witness :
    sampleEngine.run none = (Except.error Err.NullMessage, none)
  ∧ sampleEngine.run (some ControlMessage.init)
      = (Except.error Err.NoEngineTask, some ControlMessage.init) :=
  ⟨(run_precondition_failures sampleEngine).1,
   (run_precondition_failures sampleEngine).2 ControlMessage.init rfl⟩

/-- C6: once the task-category discriminator is `INFERENCE` or `TRAINING`,
adding a task of the other category fails with `MixedTaskCategories` and
the whole message — task queues included — is returned unchanged; in
particular adding an "inference" task and then a "training" task to the
same (fresh-category) message fails. -/
theorem add_task_mixed_rejected (m : ControlMessage) (t : J) :
    (m.m_cm_type = ControlMessageType.INFERENCE →
      m.add_task "training" t = (m, some Err.MixedTaskCategories))
  ∧ (m.m_cm_type = ControlMessageType.TRAINING →
      m.add_task "inference" t = (m, some Err.MixedTaskCategories))
  ∧ (∀ (m0 : ControlMessage) (t1 t2 : J), m0.m_cm_type = ControlMessageType.NONE →
      (((m0.add_task "inference" t1).1).add_task "training" t2).2
        = some Err.MixedTaskCategories) := by
  refine ⟨?_, ?_, ?_⟩
  · intro h
    unfold ControlMessage.add_task
    simp [taskTypeOf, h]
  · intro h
    unfold ControlMessage.add_task
    simp [taskTypeOf, h]
  · intro m0 t1 t2 h
    unfold ControlMessage.add_task
    simp [taskTypeOf, h]

/-- C6 witness: a fresh message given an "inference" task and then a
"training" task; and a directly-inference-typed message given "training". -/
theorem add_task_mixed_rejected_witness :
    ((({ ControlMessage.init with m_cm_type := ControlMessageType.INFERENCE }) :
        ControlMessage).add_task "training" J.null
      = ({ ControlMessage.init with m_cm_type := ControlMessageType.INFERENCE },
         some Err.MixedTaskCategories))
  ∧ (((ControlMessage.init.add_task "inference" J.null).1).add_task "training" J.null).2
      = some Err.MixedTaskCategories :=
  ⟨(add_task_mixed_rejected
      { ControlMessage.init with m_cm_type := ControlMessageType.INFERENCE } J.null).1 rfl,
   (add_task_mixed_rejected ControlMessage.init J.null).2.2 ControlMessage.init J.null J.null rfl⟩

/-- C9: the copy constructor copies only the config (metadata included) and
the task queues; the payload, the attached object and the task-category
discriminator are left at their defaults — so the copy of a message whose
category is `INFERENCE` has category `NONE` and accepts a subsequent
"training" task without error. -/
theorem copy_resets_category (m : ControlMessage) (t : J) :
    (m.copy).m_config = m.m_config
  ∧ (m.copy).m_tasks = m.m_tasks
  ∧ (m.copy).m_payload = none
  ∧ (m.copy).m_obj_payload = none
  ∧ (m.copy).m_cm_type = ControlMessageType.NONE
  ∧ ∀ m1 : ControlMessage, m1.m_cm_type = ControlMessageType.INFERENCE →
      ((m1.copy).add_task "training" t).2 = none
    ∧ ((m1.copy).add_task "training" t).1.m_cm_type = ControlMessageType.TRAINING := by
  refine ⟨rfl, rfl, rfl, rfl, rfl, ?_⟩
  intro m1 _
  unfold ControlMessage.add_task ControlMessage.copy
  simp [taskTypeOf]

/-- C9 witness: copying a message with payload, attached object, inference
category and an inference task: the copy keeps config and tasks, drops the
rest, and then accepts a "training" task. -/
theorem copy_resets_category_witness :
    (richMessage.copy).m_payload = none
  ∧ ((richMessage.copy).add_task "training" J.null).2 = none := by
  refine ⟨(copy_resets_category richMessage J.null).2.2.1, ?_⟩
  exact ((copy_resets_category richMessage J.null).2.2.2.2.2 richMessage rfl).1

/-- C10: for a task type outside {"inference", "training"} (such as
"llm_engine"), `add_task` never fails, leaves the category discriminator
exactly as it was, and appends the task at the back of that type's FIFO
queue, leaving every other type's queue untouched. -/
theorem add_task_uncategorized (m : ControlMessage) (ty : String) (task : J)
    (h1 : ty ≠ "inference") (h2 : ty ≠ "training") :
    (m.add_task ty task).2 = none
  ∧ (m.add_task ty task).1.m_cm_type = m.m_cm_type
  ∧ taskQueue (m.add_task ty task).1 ty = taskQueue m ty ++ [task]
  ∧ ∀ ty2, ty2 ≠ ty →
      tasksLookup ((m.add_task ty task).1).m_tasks ty2 = tasksLookup m.m_tasks ty2 := by
  have ht : taskTypeOf ty = ControlMessageType.NONE := by
    unfold taskTypeOf
    rw [if_neg h1, if_neg h2]
  by_cases hm : m.m_cm_type = ControlMessageType.NONE
  · refine ⟨?_, ?_, ?_, ?_⟩
    · unfold ControlMessage.add_task
      simp [ht, hm]
    · unfold ControlMessage.add_task
      simp [ht, hm]
    · unfold ControlMessage.add_task taskQueue
      simp [ht, hm, tasksLookup_tasksPush_self]
    · intro ty2 hne
      unfold ControlMessage.add_task
      simp [ht, hm, tasksLookup_tasksPush_other m.m_tasks ty ty2 task hne]
  · refine ⟨?_, ?_, ?_, ?_⟩
    · unfold ControlMessage.add_task
      simp [ht, hm]
    · unfold ControlMessage.add_task
      simp [ht, hm]
    · unfold ControlMessage.add_task taskQueue
      simp [ht, hm, tasksLookup_tasksPush_self]
    · intro ty2 hne
      unfold ControlMessage.add_task
      simp [ht, hm, tasksLookup_tasksPush_other m.m_tasks ty ty2 task hne]

/-- C10 witness: queuing two "llm_engine" tasks on a message already typed
`INFERENCE`: no error, category untouched, FIFO append. -/
theorem add_task_uncategorized_witness :
    ((({ ControlMessage.init with
         m_cm_type := ControlMessageType.INFERENCE
       , m_tasks := [("llm_engine", [J.null])] } : ControlMessage).add_task
        "llm_engine" (J.str "second")).2 = none)
  ∧ ((({ ControlMessage.init with
         m_cm_type := ControlMessageType.INFERENCE
       , m_tasks := [("llm_engine", [J.null])] } : ControlMessage).add_task
        "llm_engine" (J.str "second")).1.m_cm_type = ControlMessageType.INFERENCE)
  ∧ taskQueue ((({ ControlMessage.init with
         m_cm_type := ControlMessageType.INFERENCE
       , m_tasks := [("llm_engine", [J.null])] } : ControlMessage).add_task
        "llm_engine" (J.str "second")).1) "llm_engine" = [J.null, J.str "second"] := by
  have h := add_task_uncategorized
    { ControlMessage.init with
      m_cm_type := ControlMessageType.INFERENCE
    , m_tasks := [("llm_engine", [J.null])] }
    "llm_engine" (J.str "second") (by decide) (by decide)
  exact ⟨h.1, h.2.1, h.2.2.1⟩

/-- C7: `remove_task` returns the front (earliest-added, since `add_task`
appends) task of the requested type and removes exactly that entry, leaving
every other type's queue untouched; it fails — leaving the message
unchanged — when the message holds no task of that type; and `has_task` is
true exactly when at least one task of the type remains. The last conjunct
records the FIFO discipline: a successful `add_task` appends at the back,
so the front is the earliest added. -/
theorem remove_task_fifo (m : ControlMessage) (ty : String) :
    (∀ (x : J) (xs : List J), taskQueue m ty = x :: xs →
        (m.remove_task ty).1 = Except.ok x
      ∧ taskQueue (m.remove_task ty).2 ty = xs
      ∧ ∀ ty2, ty2 ≠ ty →
          tasksLookup ((m.remove_task ty).2).m_tasks ty2 = tasksLookup m.m_tasks ty2)
  ∧ (m.has_task ty = false →
        (∃ e, (m.remove_task ty).1 = Except.error e) ∧ (m.remove_task ty).2 = m)
  ∧ (m.has_task ty = true ↔ taskQueue m ty ≠ [])
  ∧ (∀ task : J, (m.add_task ty task).2 = none →
        taskQueue ((m.add_task ty task).1) ty = taskQueue m ty ++ [task]) := by
  refine ⟨?_, ?_, has_task_iff m ty, ?_⟩
  · intro x xs hq
    have hl := taskQueue_eq_cons m ty x xs hq
    rw [remove_task_of_queue m ty x xs hq]
    refine ⟨rfl, ?_, ?_⟩
    · unfold taskQueue
      simp [tasksLookup_tasksPopFront_self m.m_tasks ty x xs hl]
    · intro ty2 hne
      simp [tasksLookup_tasksPopFront_other m.m_tasks ty ty2 hne]
  · intro h
    unfold ControlMessage.remove_task
    cases hl : tasksLookup m.m_tasks ty with
    | none => exact ⟨⟨Err.TaskKeyNotFound, rfl⟩, rfl⟩
    | some ts =>
      cases ts with
      | nil => exact ⟨⟨Err.NoTasksOfType, rfl⟩, rfl⟩
      | cons x xs =>
        exfalso
        have : m.has_task ty = true := by
          rw [has_task_iff]
          unfold taskQueue
          rw [hl]
          simp
        rw [h] at this
        exact Bool.false_ne_true this
  · intro task hok
    unfold ControlMessage.add_task at hok ⊢
    by_cases hc : taskTypeOf ty ≠ ControlMessageType.NONE ∧
        (if m.m_cm_type = ControlMessageType.NONE
         then { m with m_cm_type := taskTypeOf ty }
         else m).m_cm_type ≠ taskTypeOf ty
    · simp only [if_pos hc] at hok
      simp at hok
    · simp only [if_neg hc]
      by_cases hm : m.m_cm_type = ControlMessageType.NONE <;>
        simp [hm, taskQueue, tasksLookup_tasksPush_self]

/-- C7 witness: a message with two "llm_engine" tasks queued: removal
returns the first, keeps the second, and fails on an absent type; plus the
`has_task` characterizations and the append discipline at a concrete task. -/
theorem remove_task_fifo_witness :
    (({ ControlMessage.init with
        m_tasks := [("llm_engine", [J.str "first", J.str "second"])] } :
          ControlMessage).remove_task "llm_engine").1 = Except.ok (J.str "first")
  ∧ taskQueue (({ ControlMessage.init with
        m_tasks := [("llm_engine", [J.str "first", J.str "second"])] } :
          ControlMessage).remove_task "llm_engine").2 "llm_engine" = [J.str "second"]
  ∧ (∃ e, (ControlMessage.init.remove_task "other").1 = Except.error e)
  ∧ (ControlMessage.init.remove_task "other").2 = ControlMessage.init := by
  have h1 := (remove_task_fifo
    { ControlMessage.init with
      m_tasks := [("llm_engine", [J.str "first", J.str "second"])] } "llm_engine").1
    (J.str "first") [J.str "second"] rfl
  have h2 := (remove_task_fifo ControlMessage.init "other").2.1 rfl
  exact ⟨h1.1, h1.2.1, h2.1, h2.2⟩

theorem has_task_false_of_queue_nil (m : ControlMessage)
    (hq : taskQueue m "llm_engine" = []) :
    m.has_task "llm_engine" = false := by
  cases hh : m.has_task "llm_engine"
  · rfl
  · exact absurd hq ((has_task_iff m "llm_engine").mp hh)

theorem runLoop_ok_of_steps (eng : LLMEngine) (f : J → List ControlMessage) :
    ∀ (n : Nat) (msg : ControlMessage), (taskQueue msg "llm_engine").length = n →
    (∀ t ∈ taskQueue msg "llm_engine", ∀ m2, eng.runStep t m2 = Except.ok (f t)) →
    (eng.runLoop msg).1 = Except.ok ((taskQueue msg "llm_engine").flatMap f) := by
  intro n
  induction n with
  | zero =>
    intro msg hlen _
    have hq : taskQueue msg "llm_engine" = [] := List.length_eq_zero.mp hlen
    rw [runLoop_no_task eng msg (has_task_false_of_queue_nil msg hq), hq]
    rfl
  | succ n ih =>
    intro msg hlen hsteps
    cases hq : taskQueue msg "llm_engine" with
    | nil => rw [hq] at hlen; simp at hlen
    | cons x xs =>
      rw [runLoop_cons eng msg x xs hq]
      have hstep : eng.runStep x
          { msg with m_tasks := tasksPopFront msg.m_tasks "llm_engine" } = Except.ok (f x) :=
        hsteps x (by rw [hq]; exact List.mem_cons_self x xs) _
      rw [hstep]
      have hq2 := taskQueue_drain msg x xs hq
      have hlen2 : (taskQueue { msg with m_tasks := tasksPopFront msg.m_tasks "llm_engine" }
          "llm_engine").length = n := by
        rw [hq2]
        rw [hq] at hlen
        simpa using hlen
      have hsteps2 : ∀ t ∈ taskQueue
          { msg with m_tasks := tasksPopFront msg.m_tasks "llm_engine" } "llm_engine",
          ∀ m3, eng.runStep t m3 = Except.ok (f t) := by
        intro t ht m3
        rw [hq2] at ht
        exact hsteps t (by rw [hq]; exact List.mem_cons_of_mem x ht) m3
      have hrec := ih _ hlen2 hsteps2
      cases hloop : eng.runLoop { msg with m_tasks := tasksPopFront msg.m_tasks "llm_engine" } with
      | mk r mfin =>
        rw [hloop] at hrec
        simp only at hrec
        rw [hq2] at hrec
        subst hrec
        simp

theorem runLoop_drained (eng : LLMEngine) :
    ∀ (n : Nat) (msg : ControlMessage), (taskQueue msg "llm_engine").length = n →
    ∀ (out : List ControlMessage) (mfin : ControlMessage),
    eng.runLoop msg = (Except.ok out, mfin) →
    mfin.has_task "llm_engine" = false := by
  intro n
  induction n with
  | zero =>
    intro msg hlen out mfin hrun
    have hq : taskQueue msg "llm_engine" = [] := List.length_eq_zero.mp hlen
    have h0 := has_task_false_of_queue_nil msg hq
    rw [runLoop_no_task eng msg h0] at hrun
    simp only [Prod.mk.injEq] at hrun
    rw [← hrun.2]
    exact h0
  | succ n ih =>
    intro msg hlen out mfin hrun
    cases hq : taskQueue msg "llm_engine" with
    | nil => rw [hq] at hlen; simp at hlen
    | cons x xs =>
      rw [runLoop_cons eng msg x xs hq] at hrun
      have hq2 := taskQueue_drain msg x xs hq
      have hlen2 : (taskQueue { msg with m_tasks := tasksPopFront msg.m_tasks "llm_engine" }
          "llm_engine").length = n := by
        rw [hq2]
        rw [hq] at hlen
        simpa using hlen
      cases hstep : eng.runStep x
          { msg with m_tasks := tasksPopFront msg.m_tasks "llm_engine" } with
      | error e =>
        rw [hstep] at hrun
        simp at hrun
      | ok tasks =>
        rw [hstep] at hrun
        cases hloop : eng.runLoop
            { msg with m_tasks := tasksPopFront msg.m_tasks "llm_engine" } with
        | mk r mf2 =>
          rw [hloop] at hrun
          cases r with
          | error e => simp at hrun
          | ok rest =>
            simp only [Prod.mk.injEq, Except.ok.injEq] at hrun
            rw [← hrun.2]
            exact ih _ hlen2 rest mf2 hloop

theorem runLoop_first_error (eng : LLMEngine) (f : J → List ControlMessage) (e : Err) :
    ∀ (pre : List J) (msg : ControlMessage) (t : J) (post : List J),
    taskQueue msg "llm_engine" = pre ++ t :: post →
    (∀ u ∈ pre, ∀ m2, eng.runStep u m2 = Except.ok (f u)) →
    (∀ m2, eng.runStep t m2 = Except.error e) →
    (eng.runLoop msg).1 = Except.error e := by
  intro pre
  induction pre with
  | nil =>
    intro msg t post hq _ hfail
    rw [List.nil_append] at hq
    rw [runLoop_cons eng msg t post hq]
    rw [hfail _]
  | cons u pre2 ih =>
    intro msg t post hq hpre hfail
    rw [List.cons_append] at hq
    rw [runLoop_cons eng msg u (pre2 ++ t :: post) hq]
    have hstep : eng.runStep u
        { msg with m_tasks := tasksPopFront msg.m_tasks "llm_engine" } = Except.ok (f u) :=
      hpre u (List.mem_cons_self u pre2) _
    rw [hstep]
    have hq2 := taskQueue_drain msg u (pre2 ++ t :: post) hq
    have hrec := ih _ t post hq2
      (fun u2 hu2 m3 => hpre u2 (List.mem_cons_of_mem u hu2) m3) hfail
    cases hloop : eng.runLoop
        { msg with m_tasks := tasksPopFront msg.m_tasks "llm_engine" } with
    | mk r mf2 =>
      rw [hloop] at hrec
      cases r with
      | ok rest => simp at hrec
      | error e2 =>
        simp only at hrec
        simp only [Except.error.injEq] at hrec
        subst hrec
        rfl

/-- C2: when `run` succeeds, the returned vector is the concatenation, in
drain order of the `llm_engine` tasks, of the vectors the chosen handler
produces for each drained task (here: each drained task's pipeline —
parse, execute, handler dispatch — yields `f t`), and its length is the
sum of those vectors' lengths. -/
theorem run_concatenates (eng : LLMEngine) (msg : ControlMessage)
    (f : J → List ControlMessage)
    (hne : msg.has_task "llm_engine" = true)
    (hsteps : ∀ t ∈ taskQueue msg "llm_engine", ∀ m2, eng.runStep t m2 = Except.ok (f t)) :
    (eng.run (some msg)).1 = Except.ok ((taskQueue msg "llm_engine").flatMap f)
  ∧ ((taskQueue msg "llm_engine").flatMap f).length
      = ((taskQueue msg "llm_engine").map (fun t => (f t).length)).sum := by
  constructor
  · simp only [LLMEngine.run]
    rw [if_pos hne]
    exact runLoop_ok_of_steps eng f _ msg rfl hsteps
  · simp [List.length_flatMap, Function.comp_def]

/-- C2 witness: two queued tasks whose handler vectors have lengths 1 and
1: `run` returns their concatenation, of length 2. -/
theorem run_concatenates_witness :
    (sampleEngine.run (some twoTaskMessage)).1
      = Except.ok [ControlMessage.init, ControlMessage.init] := by
  have h := (run_concatenates sampleEngine twoTaskMessage
    (fun _ => [ControlMessage.init]) rfl
    (by intro t ht m2
        rw [show taskQueue twoTaskMessage "llm_engine"
            = [sampleTaskJson, sampleTaskJson] from rfl] at ht
        simp at ht
        rw [ht]
        rfl)).1
  exact h.trans rfl

/-- C4: whenever `run` returns successfully, the message has been drained:
`has_task "llm_engine"` is false on the final message state. -/
theorem run_drains_all (eng : LLMEngine) (om : Option ControlMessage)
    (out : List ControlMessage) (mfin : ControlMessage)
    (h : eng.run om = (Except.ok out, some mfin)) :
    mfin.has_task "llm_engine" = false := by
  cases om with
  | none => simp [LLMEngine.run] at h
  | some msg =>
    simp only [LLMEngine.run] at h
    by_cases hne : msg.has_task "llm_engine" = true
    · rw [if_pos hne] at h
      cases hloop : eng.runLoop msg with
      | mk r mf =>
        rw [hloop] at h
        simp only [Prod.mk.injEq, Option.some.injEq] at h
        obtain ⟨h1, h2⟩ := h
        rw [← h2]
        exact runLoop_drained eng _ msg rfl out mf (by rw [hloop, h1])
    · rw [if_neg hne] at h
      simp at h

/-- C4 witness: running the sample engine on a one-task message ends in
`drainedMessage`, which has no `llm_engine` task left. -/
theorem run_drains_all_witness :
    drainedMessage.has_task "llm_engine" = false := by
  have hone : sampleEngine.runLoop oneTaskMessage
      = (Except.ok ([ControlMessage.init] ++ []), drainedMessage) := by
    rw [runLoop_cons sampleEngine oneTaskMessage sampleTaskJson [] rfl]
    rw [show sampleEngine.runStep sampleTaskJson
          { oneTaskMessage with m_tasks := tasksPopFront oneTaskMessage.m_tasks "llm_engine" }
        = Except.ok [ControlMessage.init] from rfl]
    rw [runLoop_no_task sampleEngine
          { oneTaskMessage with m_tasks := tasksPopFront oneTaskMessage.m_tasks "llm_engine" }
          rfl]
    rfl
  exact run_drains_all sampleEngine (some oneTaskMessage)
    ([ControlMessage.init] ++ []) drainedMessage
    (by simp only [LLMEngine.run]
        rw [if_pos (show oneTaskMessage.has_task "llm_engine" = true from rfl), hone])

/-- C5: if a drained task's pipeline (its execution or its handler
dispatch) fails while every earlier drained task succeeded, `run` completes
with exactly that error; the result carries no vector at all, so the
outputs accumulated from the earlier tasks of the same invocation are
discarded (the C++ `output_messages` local is destroyed by unwinding). -/
theorem run_discards_on_error (eng : LLMEngine) (msg : ControlMessage)
    (f : J → List ControlMessage) (e : Err) (pre : List J) (t : J) (post : List J)
    (hq : taskQueue msg "llm_engine" = pre ++ t :: post)
    (hpre : ∀ u ∈ pre, ∀ m2, eng.runStep u m2 = Except.ok (f u))
    (hfail : ∀ m2, eng.runStep t m2 = Except.error e) :
    (eng.run (some msg)).1 = Except.error e := by
  have hne : msg.has_task "llm_engine" = true := by
    rw [has_task_iff, hq]
    simp
  simp only [LLMEngine.run]
  rw [if_pos hne]
  exact runLoop_first_error eng f e pre msg t post hq hpre hfail

/-- C5 witness: first task succeeds with one output, second task's handler
throws: `run` surfaces the handler's error and no partial vector. -/
theorem run_discards_on_error_witness :
    (boomEngine.run (some boomMessage)).1 = Except.error (Err.external 42) :=
  run_discards_on_error boomEngine boomMessage
    (fun _ => [ControlMessage.init]) (Err.external 42)
    [sampleTaskJson] boomTaskJson [] rfl
    (by intro u hu m2
        simp at hu
        rw [hu]
        rfl)
    (fun m2 => rfl)

/-- A context with a non-trivial output-name filter, for the C8 witness. -/
def filterContext : LLMContext :=
  { m_name := "n"
  , m_output_names := ["a", "c"]
  , m_state := { task := { task_type := "inference", task_dict := J.obj [] }
               , message := none
               , values := [] }
  , m_outputs := [("a", J.num 1), ("b", J.num 2)]
  , m_outputs_ready := false }

/-- C8: `outputs_complete` publishes exactly the filtered key set into
`state.values[name]`: with a non-empty `output_names` list the published
object holds exactly the keys of the local `outputs` intersected with
`output_names`; with an empty `output_names` it is the full local
`outputs` object. (The completion body is modelled from the spec, its
translation unit not being under `src/`.) -/
theorem outputs_complete_publishes (ctx : LLMContext) :
    (ctx.m_output_names = [] →
      objLookup ((ctx.outputs_complete).m_state.values) ctx.m_name
        = some (J.obj ctx.m_outputs))
  ∧ (ctx.m_output_names ≠ [] →
      ∃ pub, objLookup ((ctx.outputs_complete).m_state.values) ctx.m_name
          = some (J.obj pub)
        ∧ ∀ k, (∃ v, (k, v) ∈ pub)
            ↔ ((∃ v, (k, v) ∈ ctx.m_outputs) ∧ k ∈ ctx.m_output_names)) := by
  constructor
  · intro h
    simp only [LLMContext.outputs_complete]
    rw [if_pos h]
    exact objLookup_objSet_self ctx.m_state.values ctx.m_name (J.obj ctx.m_outputs)
  · intro h
    simp only [LLMContext.outputs_complete]
    rw [if_neg h]
    refine ⟨ctx.m_outputs.filter (fun kv => decide (kv.1 ∈ ctx.m_output_names)), ?_, ?_⟩
    · exact objLookup_objSet_self ctx.m_state.values ctx.m_name _
    · intro k
      constructor
      · rintro ⟨v, hv⟩
        rw [List.mem_filter] at hv
        exact ⟨⟨v, hv.1⟩, by simpa using hv.2⟩
      · rintro ⟨⟨v, hv⟩, hk⟩
        exact ⟨v, List.mem_filter.mpr ⟨hv, by simpa using hk⟩⟩

/-- C8 witness: a context with outputs `{a: 1, b: 2}` and filter `[a, c]`
publishes an object whose key set is exactly `{a}`. -/
theorem outputs_complete_publishes_witness :
    ∃ pub, objLookup ((filterContext.outputs_complete).m_state.values)
        filterContext.m_name = some (J.obj pub)
      ∧ ∀ k, (∃ v, (k, v) ∈ pub)
          ↔ ((∃ v, (k, v) ∈ filterContext.m_outputs) ∧ k ∈ filterContext.m_output_names) :=
  (outputs_complete_publishes filterContext).2 (by simp [filterContext])

end Morpheus
